import Mathlib

/-!
Verification of the aggregation and scoring pipeline of the
ADVANTEC traffic dashboard (`core/app.py`,
`core/cycle_length_recommendations.py`).

The Python code is shallowly embedded:
* pandas scalars that may be NaN become `Option ℚ` (with `none` = NaN);
* pandas dataframes become lists of records (structures);
* timestamps become a `DT` structure (year/month/day/hour/minute; the
  data is hourly, sub-minute precision plays no role in the pipeline);
* `pandas` floor/period bucketing is embedded through the standard
  civil-calendar day numbering (days since 1970-01-01, a Thursday);
* `numpy` rounding (`.round(1)`) is embedded as exact decimal
  round-half-to-even.
-/

/-! ### Definitions -/

/-! ## `cycle_length_recommendations.get_hourly_cycle_length` -/

/-- Embedding of `get_hourly_cycle_length(volume)`.
`none` plays the role of a missing value (`pd.isna(volume)`). -/
def get_hourly_cycle_length (volume : Option ℚ) : String :=
  match volume with
  | none => "Free mode"
  | some v =>
    if v ≤ 0 then "Free mode"
    else if 2400 ≤ v then "140 sec"
    else if 1500 ≤ v then "130 sec"
    else if 600 ≤ v then "120 sec"
    else if 300 ≤ v then "110 sec"
    else "Free mode"

/-- The lookup table exactly as the claim states it: disjoint intervals,
with "Free mode" for small, non-positive, or missing volumes. -/
def cycleLengthClaimTable (volume : Option ℚ) : String :=
  match volume with
  | none => "Free mode"
  | some v =>
    if 2400 ≤ v then "140 sec"
    else if 1500 ≤ v ∧ v < 2400 then "130 sec"
    else if 600 ≤ v ∧ v < 1500 then "120 sec"
    else if 300 ≤ v ∧ v < 600 then "110 sec"
    else "Free mode"

/-! ## `cycle_length_recommendations._sec_value` and `_get_status` -/

/-- Digit-string parsing: models Python `int(...)` applied to the first
whitespace-separated token of a cycle label (all-digit tokens here). -/
def parseNatDigits (cs : List Char) : Nat :=
  cs.foldl (fun acc c => acc * 10 + (c.toNat - 48)) 0

/-- First whitespace-separated token of a label: `label.split()[0]`. -/
def firstToken (label : String) : List Char :=
  label.toList.takeWhile (fun c => c ≠ ' ')

/-- Embedding of `_sec_value(label)`:
`int(label.split()[0]) if label != "Free mode" else 0`. -/
def sec_value (label : String) : Nat :=
  if label = "Free mode" then 0 else parseNatDigits (firstToken label)

/-- Embedding of `_get_status(recommended, current)`. -/
def get_status (recommended current : String) : String :=
  if recommended = current then "🟢 OPTIMAL"
  else if recommended = "Free mode" ∧ current ≠ "Free mode" then "🔽 REDUCE"
  else if recommended ≠ "Free mode" ∧ current = "Free mode" then "⬆️ INCREASE"
  else
    let rec_val := if recommended ≠ "Free mode" then parseNatDigits (firstToken recommended) else 0
    let cur_val := if current ≠ "Free mode" then parseNatDigits (firstToken current) else 0
    if cur_val < rec_val then "⬆️ INCREASE"
    else if rec_val < cur_val then "🔽 REDUCE"
    else "🟢 OPTIMAL"

/-- The `CYCLE_ORDER` list from the source. -/
def CYCLE_ORDER : List String :=
  ["Free mode", "110 sec", "120 sec", "130 sec", "140 sec"]

/-! ## Timestamps

Pandas timestamps are embedded as civil-calendar datetimes with minute
precision (the pipeline's records are hourly; nothing in it looks below
the minute). -/

/-- A datetime value: year / month / day / hour / minute. -/
structure DT where
  year : Int
  month : Nat
  day : Nat
  hour : Nat
  minute : Nat
deriving DecidableEq

/-- Gregorian leap year. -/
def isLeap (y : Int) : Bool := (y % 4 == 0 && y % 100 != 0) || y % 400 == 0

/-- Number of days of month `m` of year `y`. -/
def daysInMonth (y : Int) (m : Nat) : Nat :=
  if m = 2 then (if isLeap y then 29 else 28)
  else if m = 4 ∨ m = 6 ∨ m = 9 ∨ m = 11 then 30
  else 31

/-- A valid datetime: month 1–12, day within the month, hour < 24,
minute < 60. -/
def ValidDT (t : DT) : Prop :=
  1 ≤ t.month ∧ t.month ≤ 12 ∧ 1 ≤ t.day ∧ t.day ≤ daysInMonth t.year t.month
    ∧ t.hour < 24 ∧ t.minute < 60

instance (t : DT) : Decidable (ValidDT t) := by unfold ValidDT; infer_instance

/-- The year as it enters the civil-calendar day count: years start in
March so that the leap day is the last day of the shifted year. -/
def yShift (y : Int) (m : Nat) : Int := if m ≤ 2 then y - 1 else y

/-- Day number of a civil date, with day 0 = 1970-01-01 (a Thursday).
This is the standard civil-from-days algorithm, the arithmetic
underlying pandas timestamps. -/
def daysFromCivil (y : Int) (m d : Nat) : Int :=
  (yShift y m / 400) * 146097
    + (yShift y m % 400) * 365 + (yShift y m % 400) / 4 - (yShift y m % 400) / 100
    + (153 * (((m : Int) + 9) % 12) + 2) / 5 + (d : Int) - 1
    - 719468

/-- Minutes since 1970-01-01 00:00. Total order on embedded datetimes. -/
def toMinutes (t : DT) : Int :=
  1440 * daysFromCivil t.year t.month t.day + 60 * (t.hour : Int) + (t.minute : Int)

/-- Day-of-week with Monday = 0 (day 0 of the epoch is a Thursday). -/
def dowMonday0 (t : DT) : Int := (daysFromCivil t.year t.month t.day + 3) % 7

/-! ## `cycle_length_recommendations.filter_by_period` -/

/-- A row of the dataframe passed to `filter_by_period`: the value of
the named time column after `pd.to_datetime(..., errors="coerce")`
(`none` = NaT), plus the rest of the row. -/
structure PRow where
  time : Option DT
  total_volume : ℚ
deriving DecidableEq

/-- The dataframe for `filter_by_period`: whether the named time column
is present, and the rows. -/
structure PeriodDF where
  hasTimeCol : Bool
  rows : List PRow
deriving DecidableEq

/-- Mask `(df_copy[time_col].dt.hour >= lo) & (df_copy[time_col].dt.hour <= hi)`:
NaT rows have no hour and fail the mask. -/
def hourBetween (lo hi : Nat) (p : PRow) : Bool :=
  match p.time with
  | none => false
  | some t => lo ≤ t.hour && t.hour ≤ hi

/-- Embedding of `filter_by_period(df, time_col, period)`. -/
def filter_by_period (df : PeriodDF) (period : String) : PeriodDF :=
  if df.hasTimeCol = false then df
  else if period = "AM" then { df with rows := df.rows.filter (hourBetween 5 10) }
  else if period = "MD" then { df with rows := df.rows.filter (hourBetween 11 15) }
  else if period = "PM" then { df with rows := df.rows.filter (hourBetween 16 20) }
  else df

/-! ## `app.normalize_dir` -/

/-- A pandas cell as it reaches `normalize_dir`: a string, a number, a
missing value, or `None`. -/
inductive PyVal
  | pstr (s : String)
  | pnum (q : ℚ)
  | pnan
  | pnone
deriving DecidableEq

/-- Conversion `astype(str)` of one cell. (The exact decimal rendering of numbers
is irrelevant downstream; any rendering is some string.) -/
def pyStr : PyVal → String
  | .pstr s => s
  | .pnum q => toString q
  | .pnan => "nan"
  | .pnone => "None"

/-- The characters the source's regex class `[\s\-\(\)_/\\]` matches. -/
def isSepChar (c : Char) : Bool :=
  c = ' ' || c = '\t' || c = '\n' || c = '\r' || c = '\x0b' || c = '\x0c'
    || c = '-' || c = '(' || c = ')' || c = '_' || c = '/' || c = '\\'

/-- Python `str.strip()` whitespace. -/
def isPySpace (c : Char) : Bool :=
  c = ' ' || c = '\t' || c = '\n' || c = '\r' || c = '\x0b' || c = '\x0c'

/-- Python `str.strip()`: drop leading and trailing whitespace. -/
def stripChars (cs : List Char) : List Char :=
  ((cs.dropWhile isPySpace).reverse.dropWhile isPySpace).reverse

/-- First half of `str.replace(r"[\s\-\(\)_/\\]+", " ")`: each separator
becomes a space. -/
def sepsToSpace (cs : List Char) : List Char :=
  cs.map (fun c => if isSepChar c then ' ' else c)

/-- Second half of the regex replace: a run of spaces collapses to one
(the regex replaces each maximal separator run by a single space). -/
def squashSpaces : List Char → List Char
  | [] => []
  | [c] => [c]
  | c1 :: c2 :: cs =>
    if c1 = ' ' && c2 = ' ' then squashSpaces (c2 :: cs)
    else c1 :: squashSpaces (c2 :: cs)

/-- Chain `.str.lower().str.strip().str.replace(r"[\s\-\(\)_/\\]+", " ")`
applied to one cell. -/
def cleanDirString (s : String) : String :=
  String.mk (squashSpaces (sepsToSpace (stripChars (s.toList.map Char.toLower))))

/-- A regex word character (`\w`), as in the `\b` boundaries. -/
def isWordChar (c : Char) : Bool := c.isAlphanum || c = '_'

/-- Does one of the alternatives match right here, with a word boundary
after it? (first argument: the alternative; second: the text suffix). -/
def wordMatchAt : List Char → List Char → Bool
  | [], rest =>
    match rest with
    | [] => true
    | c :: _ => !isWordChar c
  | _ :: _, [] => false
  | p :: ps, c :: cs => p == c && wordMatchAt ps cs

/-- Scan of `.str.contains(r"\b(w1|w2|...)\b")`: `boundary` says whether
a word boundary lies before the current position. -/
def scanWords (ws : List (List Char)) : Bool → List Char → Bool
  | _, [] => false
  | boundary, c :: cs =>
    (boundary && ws.any (fun w => wordMatchAt w (c :: cs)))
      || scanWords ws (!isWordChar c) cs

/-- Test `.str.contains(r"\b(w1|w2|...)\b")` on one cell. -/
def containsWordOf (ws : List String) (s : String) : Bool :=
  scanWords (ws.map String.toList) true s.toList

/-- One element of the vectorized `normalize_dir` chain:
`np.where(nb_mask, "nb", np.where(sb_mask, "sb", "unk"))`. -/
def normOneDir (v : String) : String :=
  let ser := cleanDirString v
  if containsWordOf ["nb", "north", "northbound"] ser then "nb"
  else if containsWordOf ["sb", "south", "southbound"] ser then "sb"
  else "unk"

/-- Embedding of `normalize_dir(s)`: elementwise over the series. -/
def normalize_dir (xs : List PyVal) : List String :=
  xs.map (fun v => normOneDir (pyStr v))

/-! ## `app` origin–destination path filtering -/

/-- A row of the corridor dataframe as the O-D filter sees it. -/
structure SegRow where
  segment_name : String
  direction : String
deriving DecidableEq

/-- Python `s.split(sep)` for a one-character separator. -/
def splitOnChar (sep : Char) : List Char → List (List Char)
  | [] => [[]]
  | c :: rest =>
    let r := splitOnChar sep rest
    if c = sep then [] :: r
    else
      match r with
      | [] => [[c]]
      | h :: t => (c :: h) :: t

/-- Function `_nodes_present_in_data`: both endpoints of every well-formed
`"A → B"` segment name. -/
def nodesPresent (base : List SegRow) : List String :=
  base.flatMap fun r =>
    match splitOnChar '→' r.segment_name.toList with
    | [a, b] => [String.mk (stripChars a), String.mk (stripChars b)]
    | _ => []

/-- The `DESIRED_NODE_ORDER_BOTTOM_UP` list from the source. -/
def DESIRED_NODE_ORDER_BOTTOM_UP : List String :=
  ["Avenue 52", "Calle Tampico", "Village Shopping Ctr", "Avenue 50",
   "Sagebrush Ave", "Eisenhower Dr", "Avenue 48", "Avenue 47",
   "Point Happy Simon", "Hwy 111"]

/-- Function `_canonical_order_in_data`: the canonical corridor order restricted
to nodes present in the data. -/
def canonicalOrderInData (base : List SegRow) : List String :=
  DESIRED_NODE_ORDER_BOTTOM_UP.filter (fun n => decide (n ∈ nodesPresent base))

/-- One step of `_build_node_order`'s loop over segment names. -/
def buildNodeOrderStep (order : List String) (s : String) : List String :=
  match splitOnChar '→' s.toList with
  | [a0, b0] =>
    let a := String.mk (stripChars a0)
    let b := String.mk (stripChars b0)
    if order = [] then [a, b]
    else if order.getLast? = some a then order ++ [b]
    else if a ∉ order ∧ b ∉ order then order ++ [a, b]
    else order
  | _ => order

/-- The final de-duplication loop of `_build_node_order` (keep the
first occurrence of each name). -/
def pyDedupGo (out : List String) : List String → List String
  | [] => out
  | n :: ns => if n ∈ out then pyDedupGo out ns else pyDedupGo (out ++ [n]) ns

/-- Function `_build_node_order`: discovered node order, used as fallback when
the canonical order restricted to the data has fewer than two nodes. -/
def buildNodeOrder (base : List SegRow) : List String :=
  pyDedupGo [] (base.foldl (fun order r => buildNodeOrderStep order r.segment_name) [])

/-- The node order the O-D branch works with: canonical if it has at
least two nodes, otherwise the discovered order. -/
def odCanonical (base : List SegRow) : List String :=
  let c := canonicalOrderInData base
  if c.length < 2 then buildNodeOrder base else c

/-- The `candidate_segments` list: NB-oriented labels
`f"{canonical[j]} → {canonical[j + 1]}"` for `j in range(imin, imax)`. -/
def candidateSegments (canonical : List String) (imin imax : Nat) : List String :=
  (List.range (imax - imin)).map
    (fun j => canonical.getD (imin + j) "" ++ " → " ++ canonical.getD (imin + j + 1) "")

/-- The `path_segments` list: candidate labels that occur in the data. -/
def odPathSegments (base : List SegRow) (origin destination : String) : List String :=
  let canonical := odCanonical base
  let i0 := canonical.indexOf origin
  let i1 := canonical.indexOf destination
  (candidateSegments canonical (min i0 i1) (max i0 i1)).filter
    (fun s => decide (s ∈ base.map (fun r => r.segment_name)))

/-- Embedding of the O-D branch (`app.py` lines 558–592): the working
dataframe after path and direction filtering. -/
def odWorking (base : List SegRow) (origin destination : String) : List SegRow :=
  let canonical := odCanonical base
  if origin ∈ canonical ∧ destination ∈ canonical then
    let i0 := canonical.indexOf origin
    let i1 := canonical.indexOf destination
    let path := odPathSegments base origin destination
    if path ≠ [] then
      let seg := base.filter (fun r => decide (r.segment_name ∈ path))
      if i0 < i1 then seg.filter (fun r => normOneDir r.direction == "nb")
      else if i1 < i0 then seg.filter (fun r => normOneDir r.direction == "sb")
      else seg
    else base
  else base

/-! ## `app._prep_bucket`: calendar bucketing -/

/-- Step back one civil day (dates at a fixed time of day). -/
def subDay (t : DT) : DT :=
  if 2 ≤ t.day then ⟨t.year, t.month, t.day - 1, t.hour, t.minute⟩
  else if 2 ≤ t.month then
    ⟨t.year, t.month - 1, daysInMonth t.year (t.month - 1), t.hour, t.minute⟩
  else ⟨t.year - 1, 12, 31, t.hour, t.minute⟩

/-- Step back `k` civil days. -/
def subDays (t : DT) : Nat → DT
  | 0 => t
  | k + 1 => subDay (subDays t k)

/-- Floor `dt.floor("H")`: zero the minutes. -/
def floorH (t : DT) : DT := ⟨t.year, t.month, t.day, t.hour, 0⟩

/-- Floor `dt.floor("D")`: zero hours and minutes. -/
def floorD (t : DT) : DT := ⟨t.year, t.month, t.day, 0, 0⟩

/-- Bucket `dt.to_period("W").dt.start_time`: the Monday 00:00 of the
timestamp's week (pandas weekly periods end on Sunday). -/
def weekStart (t : DT) : DT := subDays (floorD t) (dowMonday0 t).toNat

/-- Bucket `dt.to_period("M").dt.start_time`: first of the month, 00:00. -/
def monthStart (t : DT) : DT := ⟨t.year, t.month, 1, 0, 0⟩

/-- The bucket of one record's timestamp, by granularity (the
`if g == "Hourly" ... elif ... else  # Monthly` chain of the source). -/
def bucketOf (g : String) (t : DT) : DT :=
  if g = "Hourly" then floorH t
  else if g = "Daily" then floorD t
  else if g = "Weekly" then weekStart t
  else monthStart t

/-- Hours `AGG_META[g]["fixed_hours"]` for the non-monthly granularities. -/
def aggFixedHours (g : String) : Nat :=
  if g = "Hourly" then 1 else if g = "Daily" then 24 else 168

/-- An input row of `_prep_bucket`. -/
structure VolRecord where
  local_datetime : DT
  intersection_name : String
  total_volume : ℚ
deriving DecidableEq

/-- An output row of `_prep_bucket`. -/
structure BucketRow where
  local_datetime : DT
  intersection_name : String
  total_volume : ℚ
  bucket_hours : Nat
deriving DecidableEq

/-- Embedding of `_prep_bucket(df, granularity)`: group by
`(bucket, intersection_name)`, sum `total_volume`, attach the hours in
the bucket (`days_in_month * 24` for Monthly, the fixed hours
otherwise). -/
def prep_bucket (df : List VolRecord) (g : String) : List BucketRow :=
  ((df.map (fun r => (bucketOf g r.local_datetime, r.intersection_name))).dedup).map (fun k =>
    { local_datetime := k.1
      intersection_name := k.2
      total_volume :=
        ((df.filter (fun r =>
            decide ((bucketOf g r.local_datetime, r.intersection_name) = k))).map
          (fun r => r.total_volume)).sum
      bucket_hours :=
        if g = "Monthly" then daysInMonth k.1.year k.1.month * 24
        else aggFixedHours g })

/-- Predicate: `b` is the start of the hour that encloses `t`. -/
def IsHourStart (b t : DT) : Prop :=
  toMinutes b % 60 = 0 ∧ toMinutes b ≤ toMinutes t ∧ toMinutes t < toMinutes b + 60

/-- Predicate: `b` is the start of the civil day that encloses `t`. -/
def IsDayStart (b t : DT) : Prop :=
  toMinutes b % 1440 = 0 ∧ toMinutes b ≤ toMinutes t ∧ toMinutes t < toMinutes b + 1440

/-- Predicate: `b` is the Monday-00:00 start of the week that encloses `t`. -/
def IsWeekStart (b t : DT) : Prop :=
  toMinutes b % 1440 = 0 ∧ dowMonday0 b = 0
    ∧ toMinutes b ≤ toMinutes t ∧ toMinutes t < toMinutes b + 10080

/-- Predicate: `b` is the first-of-month 00:00 of the month that encloses `t`. -/
def IsMonthStart (b t : DT) : Prop :=
  b.day = 1 ∧ b.hour = 0 ∧ b.minute = 0 ∧ b.year = t.year ∧ b.month = t.month
    ∧ toMinutes b ≤ toMinutes t
    ∧ toMinutes t < toMinutes b + 1440 * (daysInMonth t.year t.month : Int)

/-- Property that the bucket is the start of the enclosing hour / day /
week / month, by granularity. -/
def BucketStartSpec (g : String) (b t : DT) : Prop :=
  if g = "Hourly" then IsHourStart b t
  else if g = "Daily" then IsDayStart b t
  else if g = "Weekly" then IsWeekStart b t
  else IsMonthStart b t

/-- The content of claim C2, as one proposition about `prep_bucket`:
one row per (bucket, intersection) pair present in the data, bucketed
volumes are sums of the matching hourly volumes, `bucket_hours` is
1 / 24 / 168 / 24·(days of the bucket's month), and every record's
bucket is the start of its enclosing hour / day / week / month. -/
def PrepBucketClaim (df : List VolRecord) (g : String) : Prop :=
  ((prep_bucket df g).map (fun o => (o.local_datetime, o.intersection_name))).Nodup
  ∧ (∀ r ∈ df, (bucketOf g r.local_datetime, r.intersection_name)
        ∈ (prep_bucket df g).map (fun o => (o.local_datetime, o.intersection_name)))
  ∧ (∀ o ∈ prep_bucket df g, ∃ r ∈ df,
        o.local_datetime = bucketOf g r.local_datetime
          ∧ o.intersection_name = r.intersection_name)
  ∧ (∀ o ∈ prep_bucket df g,
        o.total_volume = ((df.filter (fun r =>
            decide ((bucketOf g r.local_datetime, r.intersection_name)
              = (o.local_datetime, o.intersection_name)))).map
          (fun r => r.total_volume)).sum)
  ∧ (∀ o ∈ prep_bucket df g,
        o.bucket_hours = (if g = "Hourly" then 1 else if g = "Daily" then 24
          else if g = "Weekly" then 168
          else daysInMonth o.local_datetime.year o.local_datetime.month * 24))
  ∧ (∀ r ∈ df, BucketStartSpec g (bucketOf g r.local_datetime) r.local_datetime)

/-! ## Rounding and min-max machinery for the composite scores -/

/-- Smallest element of a list (`np.nanmin` over finite values;
0 on an empty list, a case the pipeline never reads). -/
def listMin : List ℚ → ℚ
  | [] => 0
  | x :: xs => xs.foldl min x

/-- Largest element of a list (`np.nanmax` over finite values). -/
def listMax : List ℚ → ℚ
  | [] => 0
  | x :: xs => xs.foldl max x

/-- Mean of a list (pandas `groupby(...).mean()`); 0 on empty. -/
def listMean (l : List ℚ) : ℚ := l.sum / l.length

/-- Round to the nearest integer, ties to even (numpy's rounding). -/
def roundHalfEven (q : ℚ) : ℤ :=
  if q - ⌊q⌋ < 1 / 2 then ⌊q⌋
  else if 1 / 2 < q - ⌊q⌋ then ⌊q⌋ + 1
  else if ⌊q⌋ % 2 = 0 then ⌊q⌋ else ⌊q⌋ + 1

/-- Rounding `.round(1)`: one decimal, exact (numpy scaled round-half-even). -/
def round1 (q : ℚ) : ℚ := (roundHalfEven (q * 10) : ℚ) / 10

/-! ## `app` bottleneck analysis (Bottleneck_Score) -/

/-- Embedding of the local `_norm(s)` of the bottleneck table: min-max
over the column if `mx > mn`, otherwise the zero column (over ℚ every
value is finite, so the `np.isfinite` guard always holds). -/
def npNorm (vs : List ℚ) : List ℚ :=
  if listMin vs < listMax vs then
    vs.map (fun v => (v - listMin vs) / (listMax vs - listMin vs))
  else vs.map (fun _ => 0)

/-- Min-max normalization exactly as the claim words it: the constant 0
when the max equals the min. -/
def mmnormSpec (vs : List ℚ) : List ℚ :=
  vs.map (fun v =>
    if listMax vs = listMin vs then 0
    else (v - listMin vs) / (listMax vs - listMin vs))

/-- A row of the bottleneck analysis frame (after `pd.to_numeric`
coercion: the metric columns are numeric). -/
structure BotRow where
  segment_name : String
  direction : String
  average_delay : ℚ
  average_traveltime : ℚ
deriving DecidableEq

/-- The group keys of `groupby(["segment_name", "dir_norm"])`. -/
def botKeys (rows : List BotRow) : List (String × String) :=
  (rows.map (fun r => (r.segment_name, normOneDir r.direction))).dedup

/-- One segment-direction group. -/
def botGroup (rows : List BotRow) (k : String × String) : List BotRow :=
  rows.filter (fun r => decide ((r.segment_name, normOneDir r.direction) = k))

/-- Column `average_delay_max` over the groups. -/
def delayMaxCol (rows : List BotRow) : List ℚ :=
  (botKeys rows).map (fun k => listMax ((botGroup rows k).map (fun r => r.average_delay)))

/-- Column `average_delay_mean` over the groups. -/
def delayMeanCol (rows : List BotRow) : List ℚ :=
  (botKeys rows).map (fun k => listMean ((botGroup rows k).map (fun r => r.average_delay)))

/-- Column `average_traveltime_max` over the groups. -/
def ttMaxCol (rows : List BotRow) : List ℚ :=
  (botKeys rows).map (fun k => listMax ((botGroup rows k).map (fun r => r.average_traveltime)))

/-- Elementwise combination of three aligned columns. -/
def zipWith3 (f : ℚ → ℚ → ℚ → ℚ) : List ℚ → List ℚ → List ℚ → List ℚ
  | a :: as, b :: bs, c :: cs => f a b c :: zipWith3 f as bs cs
  | _, _, _ => []

/-- Embedding of the `Bottleneck_Score` column:
`(0.45*_norm(max) + 0.35*_norm(mean) + 0.20*_norm(tmax)) * 100`,
rounded to one decimal. -/
def bottleneck_scores (rows : List BotRow) : List ℚ :=
  (zipWith3 (fun a b c => (0.45 * a + 0.35 * b + 0.20 * c) * 100)
    (npNorm (delayMaxCol rows)) (npNorm (delayMeanCol rows))
    (npNorm (ttMaxCol rows))).map round1

/-- The composite formula exactly as the claim words it (no rounding):
`100 * (0.45 * mmnorm(peak delay) + 0.35 * mmnorm(mean delay)
+ 0.20 * mmnorm(peak travel time))`. -/
def bottleneckFormula (rows : List BotRow) : List ℚ :=
  zipWith3 (fun a b c => 100 * (0.45 * a + 0.35 * b + 0.20 * c))
    (mmnormSpec (delayMaxCol rows)) (mmnormSpec (delayMeanCol rows))
    (mmnormSpec (ttMaxCol rows))

/-- The three concrete groups used to exercise C3. -/
def c3Rows : List BotRow :=
  [BotRow.mk "A" "NB" 0 0, BotRow.mk "B" "NB" 1 1, BotRow.mk "C" "NB" 3 3]

/-! ## `app` intersection volume & capacity risk analysis (Risk Score) -/

/-- The constant `THEORETICAL_LINK_CAPACITY_VPH` from the source. -/
def THEORETICAL_LINK_CAPACITY_VPH : ℚ := 1800

/-- A row of the volume frame as the risk table sees it. -/
structure VolRow where
  intersection_name : String
  direction : String
  total_volume : ℚ
deriving DecidableEq

/-- The group keys of `groupby(["intersection_name", "direction"])`. -/
def riskKeys (rows : List VolRow) : List (String × String) :=
  (rows.map (fun r => (r.intersection_name, r.direction))).dedup

/-- The volumes of one intersection-direction group. -/
def groupVols (rows : List VolRow) (k : String × String) : List ℚ :=
  (rows.filter (fun r => decide ((r.intersection_name, r.direction) = k))).map
    (fun r => r.total_volume)

/-- Embedding of the `🚨 Risk Score` column:
`0.5 * Peak_Capacity_Util + 0.3 * Avg_Capacity_Util
+ 0.2 * (Peak_Avg_Ratio * 10)`, rounded to one decimal, where the
utilizations are rounded percentages of the fixed capacity and the
peak-to-average ratio has its `inf`/NaN (zero mean) case replaced by 0
and is rounded. -/
def risk_scores (rows : List VolRow) : List ℚ :=
  (riskKeys rows).map (fun k =>
    round1 (0.5 * round1 (listMax (groupVols rows k) / THEORETICAL_LINK_CAPACITY_VPH * 100)
      + 0.3 * round1 (listMean (groupVols rows k) / THEORETICAL_LINK_CAPACITY_VPH * 100)
      + 0.2 * (round1 (if listMean (groupVols rows k) = 0 then 0
          else listMax (groupVols rows k) / listMean (groupVols rows k)) * 10)))

/-- The claim's weighted formula for the Risk Score (no min-max
normalization anywhere): `0.5 * peak-capacity-utilization-percent
+ 0.3 * average-capacity-utilization-percent
+ 0.2 * (10 * peak-to-average ratio)`. -/
def riskFormula (rows : List VolRow) : List ℚ :=
  (riskKeys rows).map (fun k =>
    0.5 * round1 (100 * listMax (groupVols rows k) / 1800)
    + 0.3 * round1 (100 * listMean (groupVols rows k) / 1800)
    + 0.2 * (10 * round1 (if listMean (groupVols rows k) = 0 then 0
        else listMax (groupVols rows k) / listMean (groupVols rows k))))

/-- The single concrete group used to exercise C4: one reading of
3600 vph, twice the theoretical link capacity. -/
def c4Rows : List VolRow := [VolRow.mk "X" "NB" 3600]

/-! ## Statelessness of the aggregation and scoring functions

The three functions read their dataframe / scalar, copy it
(`df.copy()` in `filter_by_period` and `_prep_bucket`; scalars are
immutable), and transform only the copy. A run is embedded as a
function of an explicit store (the named dataframes alive in the app)
returning the store after the run together with the result, so that
"no mutation of the input" and "no hidden state" are actual statements
rather than artifacts of the embedding. -/

/-- One run of `_prep_bucket` against dataframe `i` of the store. -/
def prepBucketRun (σ : List (List VolRecord)) (i : Nat) (g : String) :
    List (List VolRecord) × List BucketRow :=
  (σ, prep_bucket (σ.getD i []) g)

/-- One run of `filter_by_period` against dataframe `i` of the store. -/
def filterByPeriodRun (σ : List PeriodDF) (i : Nat) (period : String) :
    List PeriodDF × PeriodDF :=
  (σ, filter_by_period (σ.getD i ⟨false, []⟩) period)

/-- One run of `get_hourly_cycle_length` against scalar `i` of the
store. -/
def cycleLengthRun (σ : List (Option ℚ)) (i : Nat) :
    List (Option ℚ) × String :=
  (σ, get_hourly_cycle_length (σ.getD i none))

/-! ### Theorems -/

/-- Only volumes `> 0` reach the table rows in the claim's reading;
the claim folds `v ≤ 0` into the "Free mode" row, and indeed
`v ≤ 0` never meets any `≥ 300` threshold. -/
theorem cycleLengthClaimTable_nonpos (v : ℚ) (h : v ≤ 0) :
    cycleLengthClaimTable (some v) = "Free mode" := by
  unfold cycleLengthClaimTable
  have h1 : ¬ (2400 : ℚ) ≤ v := by linarith
  have h2 : ¬ ((1500 : ℚ) ≤ v ∧ v < 2400) := by rintro ⟨h2, -⟩; linarith
  have h3 : ¬ ((600 : ℚ) ≤ v ∧ v < 1500) := by rintro ⟨h3, -⟩; linarith
  have h4 : ¬ ((300 : ℚ) ≤ v ∧ v < 600) := by rintro ⟨h4, -⟩; linarith
  simp [h1, h2, h3, h4]

/-- C1: `get_hourly_cycle_length` maps every volume (including missing
ones) to exactly the discrete recommendation given by the fixed
threshold table of the claim: "140 sec" for volume ≥ 2400, "130 sec"
on [1500, 2400), "120 sec" on [600, 1500), "110 sec" on [300, 600),
and "Free mode" for volume < 300, volume ≤ 0, or NaN. -/
theorem get_hourly_cycle_length_matches_claim_table (volume : Option ℚ) :
    get_hourly_cycle_length volume = cycleLengthClaimTable volume := by
  cases volume with
  | none => rfl
  | some v =>
    rcases le_or_lt v 0 with h0 | h0
    · have h1 : ¬ (2400 : ℚ) ≤ v := by linarith
      have h2 : ¬ (1500 : ℚ) ≤ v := by linarith
      have h3 : ¬ (600 : ℚ) ≤ v := by linarith
      have h4 : ¬ (300 : ℚ) ≤ v := by linarith
      simp [get_hourly_cycle_length, cycleLengthClaimTable, h0, h1, h2, h3, h4]
    · rcases le_or_lt 2400 v with h1 | h1
      · simp [get_hourly_cycle_length, cycleLengthClaimTable, not_le.mpr h0, h1]
      · rcases le_or_lt 1500 v with h2 | h2
        · simp [get_hourly_cycle_length, cycleLengthClaimTable,
            not_le.mpr h0, not_le.mpr h1, h2, h1]
        · rcases le_or_lt 600 v with h3 | h3
          · simp [get_hourly_cycle_length, cycleLengthClaimTable,
              not_le.mpr h0, not_le.mpr h1, not_le.mpr h2, h3, h2]
          · rcases le_or_lt 300 v with h4 | h4
            · simp [get_hourly_cycle_length, cycleLengthClaimTable,
                not_le.mpr h0, not_le.mpr h1, not_le.mpr h2, not_le.mpr h3, h4, h3]
            · simp [get_hourly_cycle_length, cycleLengthClaimTable,
                not_le.mpr h0, not_le.mpr h1, not_le.mpr h2, not_le.mpr h3,
                not_le.mpr h4]

/-- C8: on the five labels of `CYCLE_ORDER`, `_get_status` returns
"🟢 OPTIMAL" exactly when the labels agree, "⬆️ INCREASE" exactly when
the recommended label has the strictly larger `_sec_value` (with
"Free mode" valued 0), and "🔽 REDUCE" exactly when it has the strictly
smaller one; exactly one of the three labels is returned. -/
theorem get_status_trichotomy_on_cycle_order
    (recommended current : String)
    (hr : recommended ∈ CYCLE_ORDER) (hc : current ∈ CYCLE_ORDER) :
    (get_status recommended current = "🟢 OPTIMAL" ↔ recommended = current)
    ∧ (get_status recommended current = "⬆️ INCREASE" ↔
        sec_value current < sec_value recommended)
    ∧ (get_status recommended current = "🔽 REDUCE" ↔
        sec_value recommended < sec_value current) := by
  fin_cases hr <;> fin_cases hc <;> decide

/-- Witness for C8 at a concrete pair of labels. -/
theorem get_status_trichotomy_on_cycle_order_witness :
    ("140 sec" ∈ CYCLE_ORDER) ∧ ("Free mode" ∈ CYCLE_ORDER)
    ∧ ((get_status "140 sec" "Free mode" = "🟢 OPTIMAL" ↔ ("140 sec" : String) = "Free mode")
        ∧ (get_status "140 sec" "Free mode" = "⬆️ INCREASE" ↔
            sec_value "Free mode" < sec_value "140 sec")
        ∧ (get_status "140 sec" "Free mode" = "🔽 REDUCE" ↔
            sec_value "140 sec" < sec_value "Free mode")) :=
  ⟨by decide, by decide,
    get_status_trichotomy_on_cycle_order "140 sec" "Free mode" (by decide) (by decide)⟩

/-- The recommended seconds as a step function of the volume. -/
theorem sec_value_get_hourly_cycle_length (v : ℚ) :
    sec_value (get_hourly_cycle_length (some v))
      = (if v ≤ 0 then 0
         else if 2400 ≤ v then 140
         else if 1500 ≤ v then 130
         else if 600 ≤ v then 120
         else if 300 ≤ v then 110
         else 0) := by
  show sec_value
      (if v ≤ 0 then "Free mode"
       else if 2400 ≤ v then "140 sec"
       else if 1500 ≤ v then "130 sec"
       else if 600 ≤ v then "120 sec"
       else if 300 ≤ v then "110 sec"
       else "Free mode") = _
  split_ifs <;> decide

/-- C9: the recommended cycle seconds are monotone in the (non-missing,
positive) volume. -/
theorem get_hourly_cycle_length_monotone (v1 v2 : ℚ)
    (hpos : 0 < v1) (hle : v1 ≤ v2) :
    sec_value (get_hourly_cycle_length (some v1))
      ≤ sec_value (get_hourly_cycle_length (some v2)) := by
  rw [sec_value_get_hourly_cycle_length v1, sec_value_get_hourly_cycle_length v2]
  split_ifs <;> first | decide | linarith

/-- Witness for C9 at concrete volumes 450 ≤ 1600. -/
theorem get_hourly_cycle_length_monotone_witness :
    ((0 : ℚ) < 450) ∧ ((450 : ℚ) ≤ 1600)
    ∧ sec_value (get_hourly_cycle_length (some 450))
        ≤ sec_value (get_hourly_cycle_length (some 1600)) :=
  ⟨by norm_num, by norm_num,
    get_hourly_cycle_length_monotone 450 1600 (by norm_num) (by norm_num)⟩

/-- C5: `filter_by_period` keeps, for "AM"/"MD"/"PM", exactly the rows
whose coerced timestamp has an hour in 5–10 / 11–15 / 16–20; any other
period keeps all rows, and an absent time column returns the input
dataframe unchanged. -/
theorem filter_by_period_spec (df : PeriodDF) (period : String) :
    (df.hasTimeCol = false → filter_by_period df period = df)
    ∧ (df.hasTimeCol = true →
        (period = "AM" →
          (filter_by_period df period).rows
            = df.rows.filter (fun p => hourBetween 5 10 p))
        ∧ (period = "MD" →
          (filter_by_period df period).rows
            = df.rows.filter (fun p => hourBetween 11 15 p))
        ∧ (period = "PM" →
          (filter_by_period df period).rows
            = df.rows.filter (fun p => hourBetween 16 20 p))
        ∧ (period ≠ "AM" → period ≠ "MD" → period ≠ "PM" →
          (filter_by_period df period).rows = df.rows)) := by
  constructor
  · intro h
    unfold filter_by_period
    rw [h]
    rfl
  · intro h
    refine ⟨?_, ?_, ?_, ?_⟩
    · intro hp; unfold filter_by_period; rw [h, hp]; rfl
    · intro hp
      unfold filter_by_period
      rw [h, hp]
      by_cases hAM : ("MD" : String) = "AM" <;> simp_all
    · intro hp
      unfold filter_by_period
      rw [h, hp]
      by_cases hAM : ("PM" : String) = "AM" <;> simp_all
    · intro h1 h2 h3
      unfold filter_by_period
      rw [h]
      simp [h1, h2, h3]

/-- Witness for C5: a concrete two-row frame filtered on "AM". -/
theorem filter_by_period_spec_witness :
    (PeriodDF.mk true
        [⟨some ⟨2025, 1, 6, 7, 0⟩, 100⟩, ⟨some ⟨2025, 1, 6, 14, 0⟩, 200⟩]).hasTimeCol
      = true
    ∧ (filter_by_period
        (PeriodDF.mk true
          [⟨some ⟨2025, 1, 6, 7, 0⟩, 100⟩, ⟨some ⟨2025, 1, 6, 14, 0⟩, 200⟩]) "AM").rows
      = [⟨some ⟨2025, 1, 6, 7, 0⟩, 100⟩] := by
  refine ⟨rfl, ?_⟩
  have h := (filter_by_period_spec
    (PeriodDF.mk true
      [⟨some ⟨2025, 1, 6, 7, 0⟩, 100⟩, ⟨some ⟨2025, 1, 6, 14, 0⟩, 200⟩]) "AM").2
  rw [(h rfl).1 rfl]
  decide

/-- C10: `normalize_dir` returns a series over the same index (same
length, elementwise) whose every value is one of exactly "nb", "sb",
"unk"; in particular no value is missing. -/
theorem normalize_dir_total (xs : List PyVal) :
    (normalize_dir xs).length = xs.length
    ∧ ∀ v ∈ normalize_dir xs, v = "nb" ∨ v = "sb" ∨ v = "unk" := by
  constructor
  · simp [normalize_dir]
  · intro v hv
    rcases List.mem_map.mp hv with ⟨x, -, hx⟩
    subst hx
    unfold normOneDir
    dsimp only
    split_ifs <;> simp

/-- Witness for C10: a concrete mixed series, with one membership
instantiated. -/
theorem normalize_dir_total_witness :
    (normOneDir (pyStr (PyVal.pstr "NB (North) - Washington"))
        ∈ normalize_dir [PyVal.pstr "NB (North) - Washington", PyVal.pnan])
    ∧ (normOneDir (pyStr (PyVal.pstr "NB (North) - Washington")) = "nb"
        ∨ normOneDir (pyStr (PyVal.pstr "NB (North) - Washington")) = "sb"
        ∨ normOneDir (pyStr (PyVal.pstr "NB (North) - Washington")) = "unk") :=
  ⟨by decide,
    (normalize_dir_total [PyVal.pstr "NB (North) - Washington", PyVal.pnan]).2
      _ (by decide)⟩

/-- C6 (amended): when both endpoints lie on the node order, their
indices differ, and at least one candidate path label occurs in the
data, every row of the working set lies on the O-D path and carries
exactly the desired normalized direction ("nb" when the origin precedes
the destination bottom-up, "sb" when it follows). -/
theorem odWorking_on_path_and_direction
    (base : List SegRow) (origin destination : String)
    (h0 : origin ∈ odCanonical base) (h1 : destination ∈ odCanonical base)
    (hne : (odCanonical base).indexOf origin ≠ (odCanonical base).indexOf destination)
    (hpath : odPathSegments base origin destination ≠ []) :
    ∀ r ∈ odWorking base origin destination,
      r.segment_name ∈ odPathSegments base origin destination
      ∧ normOneDir r.direction
          = (if (odCanonical base).indexOf origin
                < (odCanonical base).indexOf destination then "nb" else "sb") := by
  intro r hr
  unfold odWorking at hr
  rw [if_pos ⟨h0, h1⟩] at hr
  dsimp only at hr
  rw [if_pos hpath] at hr
  rcases Nat.lt_trichotomy ((odCanonical base).indexOf origin)
      ((odCanonical base).indexOf destination) with hlt | heq | hgt
  · rw [if_pos hlt] at hr ⊢
    rcases List.mem_filter.mp hr with ⟨hseg, hdir⟩
    rcases List.mem_filter.mp hseg with ⟨-, hmem⟩
    exact ⟨by simpa using hmem, by simpa using hdir⟩
  · exact absurd heq hne
  · rw [if_neg (by omega)] at hr ⊢
    rw [if_pos hgt] at hr
    rcases List.mem_filter.mp hr with ⟨hseg, hdir⟩
    rcases List.mem_filter.mp hseg with ⟨-, hmem⟩
    exact ⟨by simpa using hmem, by simpa using hdir⟩

/-- Witness for C6 on a concrete two-row corridor: only the NB row
survives an Avenue 52 → Calle Tampico selection. -/
theorem odWorking_on_path_and_direction_witness :
    ("Avenue 52" ∈ odCanonical [SegRow.mk "Avenue 52 → Calle Tampico" "NB",
        SegRow.mk "Avenue 52 → Calle Tampico" "SB"])
    ∧ ("Calle Tampico" ∈ odCanonical [SegRow.mk "Avenue 52 → Calle Tampico" "NB",
        SegRow.mk "Avenue 52 → Calle Tampico" "SB"])
    ∧ (∀ r ∈ odWorking [SegRow.mk "Avenue 52 → Calle Tampico" "NB",
          SegRow.mk "Avenue 52 → Calle Tampico" "SB"] "Avenue 52" "Calle Tampico",
        r.segment_name ∈ odPathSegments [SegRow.mk "Avenue 52 → Calle Tampico" "NB",
          SegRow.mk "Avenue 52 → Calle Tampico" "SB"] "Avenue 52" "Calle Tampico"
        ∧ normOneDir r.direction
            = (if (odCanonical [SegRow.mk "Avenue 52 → Calle Tampico" "NB",
                  SegRow.mk "Avenue 52 → Calle Tampico" "SB"]).indexOf "Avenue 52"
                  < (odCanonical [SegRow.mk "Avenue 52 → Calle Tampico" "NB",
                      SegRow.mk "Avenue 52 → Calle Tampico" "SB"]).indexOf "Calle Tampico"
               then "nb" else "sb")) :=
  ⟨by decide, by decide,
    odWorking_on_path_and_direction _ "Avenue 52" "Calle Tampico"
      (by decide) (by decide) (by decide) (by decide)⟩

/-- Counterexample to C6 as stated: both endpoints lie on the canonical
order, the origin precedes the destination, yet no candidate path label
occurs in the data (the lone segment is labelled top-down), so the
working set falls back to all rows and keeps a southbound row. -/
theorem odWorking_claim_counterexample :
    ("Avenue 52" ∈ odCanonical [SegRow.mk "Calle Tampico → Avenue 52" "SB"])
    ∧ ("Calle Tampico" ∈ odCanonical [SegRow.mk "Calle Tampico → Avenue 52" "SB"])
    ∧ ((odCanonical [SegRow.mk "Calle Tampico → Avenue 52" "SB"]).indexOf "Avenue 52"
        < (odCanonical [SegRow.mk "Calle Tampico → Avenue 52" "SB"]).indexOf "Calle Tampico")
    ∧ ¬ (∀ r ∈ odWorking [SegRow.mk "Calle Tampico → Avenue 52" "SB"]
            "Avenue 52" "Calle Tampico",
          normOneDir r.direction = "nb") := by
  refine ⟨by decide, by decide, by decide, ?_⟩
  intro h
  have := h (SegRow.mk "Calle Tampico → Avenue 52" "SB") (by decide)
  revert this
  decide

/-- The day count is affine in the day of the month. -/
theorem daysFromCivil_day_eq (y : Int) (m d : Nat) :
    daysFromCivil y m d = daysFromCivil y m 1 + (d : Int) - 1 := by
  unfold daysFromCivil yShift
  split <;> omega

/-- Every month has between 28 and 31 days. -/
theorem daysInMonth_bounds (y : Int) (m : Nat) :
    28 ≤ daysInMonth y m ∧ daysInMonth y m ≤ 31 := by
  unfold daysInMonth
  split_ifs <;> omega

/-- Stepping back one day decrements the civil day count and preserves
validity and the time of day. -/
theorem subDay_spec (t : DT) (hv : ValidDT t) :
    daysFromCivil (subDay t).year (subDay t).month (subDay t).day
        = daysFromCivil t.year t.month t.day - 1
      ∧ ValidDT (subDay t)
      ∧ (subDay t).hour = t.hour ∧ (subDay t).minute = t.minute := by
  obtain ⟨y, m, d, hh, mm⟩ := t
  obtain ⟨h1, h2, h3, h4, h5, h6⟩ := hv
  simp only at h1 h2 h3 h4 h5 h6
  unfold subDay
  simp only
  split_ifs with hd hm
  · refine ⟨?_, ?_, rfl, rfl⟩
    · dsimp only
      rw [daysFromCivil_day_eq y m d, daysFromCivil_day_eq y m (d - 1)]
      omega
    · simp only [ValidDT]
      omega
  · have hd1 : d = 1 := by omega
    subst hd1
    refine ⟨?_, ?_, rfl, rfl⟩
    · dsimp only
      interval_cases m <;>
        (unfold daysFromCivil daysInMonth yShift isLeap
         norm_num
         (try split_ifs) <;> omega)
    · have hb := daysInMonth_bounds y (m - 1)
      simp only [ValidDT]
      omega
  · have hd1 : d = 1 := by omega
    have hm1 : m = 1 := by omega
    subst hd1; subst hm1
    refine ⟨?_, ?_, rfl, rfl⟩
    · dsimp only
      unfold daysFromCivil yShift
      norm_num
      omega
    · have hb := daysInMonth_bounds (y - 1) 12
      simp only [ValidDT]
      simp only [daysInMonth, isLeap]
      norm_num
      omega

/-- Stepping back `k` days subtracts `k` from the day count. -/
theorem subDays_spec (t : DT) (hv : ValidDT t) (k : Nat) :
    daysFromCivil (subDays t k).year (subDays t k).month (subDays t k).day
        = daysFromCivil t.year t.month t.day - k
      ∧ ValidDT (subDays t k)
      ∧ (subDays t k).hour = t.hour ∧ (subDays t k).minute = t.minute := by
  induction k with
  | zero => exact ⟨by simp [subDays], hv, rfl, rfl⟩
  | succ n ih =>
    obtain ⟨ihd, ihv, ihh, ihm⟩ := ih
    obtain ⟨hd, hvv, hh, hm⟩ := subDay_spec _ ihv
    refine ⟨?_, hvv, by rw [subDays, hh, ihh], by rw [subDays, hm, ihm]⟩
    rw [subDays, hd, ihd]
    push_cast
    ring

/-- The hourly bucket is the start of the enclosing hour. -/
theorem floorH_isHourStart (t : DT) (hv : ValidDT t) : IsHourStart (floorH t) t := by
  obtain ⟨y, m, d, hh0, mm0⟩ := t
  simp only [ValidDT] at hv
  simp only [IsHourStart, toMinutes, floorH]
  omega

/-- The daily bucket is the start of the enclosing day. -/
theorem floorD_isDayStart (t : DT) (hv : ValidDT t) : IsDayStart (floorD t) t := by
  obtain ⟨y, m, d, hh0, mm0⟩ := t
  simp only [ValidDT] at hv
  simp only [IsDayStart, toMinutes, floorD]
  omega

/-- The weekly bucket is the Monday-00:00 start of the enclosing week. -/
theorem weekStart_isWeekStart (t : DT) (hv : ValidDT t) : IsWeekStart (weekStart t) t := by
  obtain ⟨y, m, d, hh0, mm0⟩ := t
  have hvD : ValidDT ⟨y, m, d, 0, 0⟩ := by
    simp only [ValidDT] at hv ⊢
    omega
  obtain ⟨hd, -, hhh, hmm⟩ := subDays_spec ⟨y, m, d, 0, 0⟩ hvD
    (dowMonday0 ⟨y, m, d, hh0, mm0⟩).toNat
  simp only [ValidDT] at hv
  simp only [dowMonday0] at hd hhh hmm ⊢
  simp only [IsWeekStart, weekStart, floorD, dowMonday0, toMinutes]
  rw [hd, hhh, hmm]
  omega

/-- The monthly bucket is the first-of-month 00:00 of the enclosing
month. -/
theorem monthStart_isMonthStart (t : DT) (hv : ValidDT t) : IsMonthStart (monthStart t) t := by
  obtain ⟨y, m, d, hh0, mm0⟩ := t
  simp only [ValidDT] at hv
  simp only [IsMonthStart, monthStart, toMinutes]
  refine ⟨trivial, trivial, trivial, trivial, trivial, ?_, ?_⟩ <;>
    (rw [daysFromCivil_day_eq y m d]; omega)

/-- For every granularity the computed bucket is the start of the
enclosing period (the two `if`-chains are parallel). -/
theorem bucketOf_isBucketStart (g : String) (t : DT) (hv : ValidDT t) :
    BucketStartSpec g (bucketOf g t) t := by
  unfold BucketStartSpec bucketOf
  split_ifs
  · exact floorH_isHourStart t hv
  · exact floorD_isDayStart t hv
  · exact weekStart_isWeekStart t hv
  · exact monthStart_isMonthStart t hv

/-- The output rows of `_prep_bucket`, projected to their group keys,
are exactly the deduplicated keys of the input. -/
theorem prep_bucket_keys (df : List VolRecord) (g : String) :
    (prep_bucket df g).map (fun o => (o.local_datetime, o.intersection_name))
      = (df.map (fun r => (bucketOf g r.local_datetime, r.intersection_name))).dedup := by
  unfold prep_bucket
  rw [List.map_map]
  exact List.map_id _

/-- C2: `_prep_bucket` re-buckets a non-empty frame of valid hourly
records as the claim says, for each of the four granularities. -/
theorem prep_bucket_spec (df : List VolRecord) (g : String)
    (hg : g ∈ ["Hourly", "Daily", "Weekly", "Monthly"])
    (hne : df ≠ [])
    (hv : ∀ r ∈ df, ValidDT r.local_datetime) :
    PrepBucketClaim df g := by
  refine ⟨?_, ?_, ?_, ?_, ?_, ?_⟩
  · rw [prep_bucket_keys]
    exact List.nodup_dedup _
  · intro r hr
    rw [prep_bucket_keys]
    exact List.mem_dedup.mpr (List.mem_map_of_mem _ hr)
  · intro o ho
    unfold prep_bucket at ho
    rcases List.mem_map.mp ho with ⟨k, hk, rfl⟩
    rcases List.mem_map.mp (List.mem_dedup.mp hk) with ⟨r, hr, hkey⟩
    exact ⟨r, hr, by rw [← hkey], by rw [← hkey]⟩
  · intro o ho
    unfold prep_bucket at ho
    rcases List.mem_map.mp ho with ⟨k, hk, rfl⟩
    simp only
  · intro o ho
    unfold prep_bucket at ho
    rcases List.mem_map.mp ho with ⟨k, hk, rfl⟩
    fin_cases hg <;> rfl
  · intro r hr
    exact bucketOf_isBucketStart g r.local_datetime (hv r hr)

/-- Witness for C2: two records of one hour and one intersection,
bucketed hourly. -/
theorem prep_bucket_spec_witness :
    (("Hourly" : String) ∈ ["Hourly", "Daily", "Weekly", "Monthly"]
      ∧ [VolRecord.mk ⟨2025, 3, 10, 14, 30⟩ "Washington @ Ave 52" 100,
          VolRecord.mk ⟨2025, 3, 10, 14, 45⟩ "Washington @ Ave 52" 50] ≠ []
      ∧ ∀ r ∈ [VolRecord.mk ⟨2025, 3, 10, 14, 30⟩ "Washington @ Ave 52" 100,
          VolRecord.mk ⟨2025, 3, 10, 14, 45⟩ "Washington @ Ave 52" 50],
            ValidDT r.local_datetime)
    ∧ PrepBucketClaim
        [VolRecord.mk ⟨2025, 3, 10, 14, 30⟩ "Washington @ Ave 52" 100,
          VolRecord.mk ⟨2025, 3, 10, 14, 45⟩ "Washington @ Ave 52" 50] "Hourly" :=
  ⟨⟨by decide, by decide, by decide⟩,
    prep_bucket_spec _ "Hourly" (by decide) (by decide) (by decide)⟩

theorem foldl_min_le_init (xs : List ℚ) (a : ℚ) : xs.foldl min a ≤ a := by
  induction xs generalizing a with
  | nil => exact le_refl a
  | cons x xs ih => exact le_trans (ih (min a x)) (min_le_left a x)

theorem foldl_min_le_mem (xs : List ℚ) (a : ℚ) : ∀ v ∈ xs, xs.foldl min a ≤ v := by
  induction xs generalizing a with
  | nil => intro v hv; cases hv
  | cons x xs ih =>
    intro v hv
    rcases List.mem_cons.mp hv with rfl | hv
    · exact le_trans (foldl_min_le_init xs (min a v)) (min_le_right a v)
    · exact ih (min a x) v hv

theorem init_le_foldl_max (xs : List ℚ) (a : ℚ) : a ≤ xs.foldl max a := by
  induction xs generalizing a with
  | nil => exact le_refl a
  | cons x xs ih => exact le_trans (le_max_left a x) (ih (max a x))

theorem mem_le_foldl_max (xs : List ℚ) (a : ℚ) : ∀ v ∈ xs, v ≤ xs.foldl max a := by
  induction xs generalizing a with
  | nil => intro v hv; cases hv
  | cons x xs ih =>
    intro v hv
    rcases List.mem_cons.mp hv with rfl | hv
    · exact le_trans (le_max_right a v) (init_le_foldl_max xs (max a v))
    · exact ih (max a x) v hv

theorem listMin_le_mem (l : List ℚ) : ∀ v ∈ l, listMin l ≤ v := by
  cases l with
  | nil => intro v hv; cases hv
  | cons x xs =>
    intro v hv
    rcases List.mem_cons.mp hv with rfl | hv
    · exact foldl_min_le_init xs v
    · exact foldl_min_le_mem xs x v hv

theorem mem_le_listMax (l : List ℚ) : ∀ v ∈ l, v ≤ listMax l := by
  cases l with
  | nil => intro v hv; cases hv
  | cons x xs =>
    intro v hv
    rcases List.mem_cons.mp hv with rfl | hv
    · exact init_le_foldl_max xs v
    · exact mem_le_foldl_max xs x v hv

theorem listMin_le_listMax (l : List ℚ) (hl : l ≠ []) : listMin l ≤ listMax l := by
  cases l with
  | nil => exact absurd rfl hl
  | cons x xs =>
    exact le_trans (listMin_le_mem (x :: xs) x (List.mem_cons_self x xs))
      (mem_le_listMax (x :: xs) x (List.mem_cons_self x xs))

theorem roundHalfEven_ge (q : ℚ) (a : ℤ) (ha : (a : ℚ) ≤ q) :
    a ≤ roundHalfEven q := by
  have ha' : a ≤ ⌊q⌋ := Int.le_floor.mpr ha
  unfold roundHalfEven
  split_ifs <;> omega

theorem roundHalfEven_le (q : ℚ) (b : ℤ) (hb : q ≤ (b : ℚ)) :
    roundHalfEven q ≤ b := by
  have hb' : ⌊q⌋ ≤ b := by
    have := Int.floor_le_floor hb
    simpa using this
  have hf1 : (⌊q⌋ : ℚ) ≤ q := Int.floor_le q
  unfold roundHalfEven
  split_ifs with h1 h2 h3
  · exact hb'
  · have hlt : (⌊q⌋ : ℚ) < q := by linarith
    have : ⌊q⌋ < b := by
      by_contra hc
      push_neg at hc
      have : (b : ℚ) ≤ (⌊q⌋ : ℚ) := by exact_mod_cast hc
      linarith
    omega
  · exact hb'
  · have hlt : (⌊q⌋ : ℚ) < q := by linarith
    have : ⌊q⌋ < b := by
      by_contra hc
      push_neg at hc
      have : (b : ℚ) ≤ (⌊q⌋ : ℚ) := by exact_mod_cast hc
      linarith
    omega

theorem round1_nonneg (q : ℚ) (h : 0 ≤ q) : 0 ≤ round1 q := by
  have h0 : (0 : ℤ) ≤ roundHalfEven (q * 10) :=
    roundHalfEven_ge (q * 10) 0 (by push_cast; linarith)
  unfold round1
  have : (0 : ℚ) ≤ (roundHalfEven (q * 10) : ℚ) := by exact_mod_cast h0
  linarith [div_nonneg this (by norm_num : (0 : ℚ) ≤ 10)]

theorem round1_le_100 (q : ℚ) (h : q ≤ 100) : round1 q ≤ 100 := by
  have h0 : roundHalfEven (q * 10) ≤ 1000 :=
    roundHalfEven_le (q * 10) 1000 (by push_cast; linarith)
  unfold round1
  rw [div_le_iff (by norm_num : (0 : ℚ) < 10)]
  exact_mod_cast h0

theorem npNorm_eq_mmnormSpec (vs : List ℚ) : npNorm vs = mmnormSpec vs := by
  unfold npNorm mmnormSpec
  rcases eq_or_ne vs [] with rfl | hne
  · simp
  · rcases lt_or_eq_of_le (listMin_le_listMax vs hne) with h | h
    · rw [if_pos h]
      refine List.map_congr_left ?_
      intro v hv
      rw [if_neg (ne_of_gt h)]
    · rw [if_neg (by rw [← h]; exact lt_irrefl _)]
      symm
      refine List.map_congr_left ?_
      intro v hv
      rw [if_pos h.symm]

/-- Every min-max normalized value lies in [0, 1]. -/
theorem npNorm_mem_unit (vs : List ℚ) : ∀ x ∈ npNorm vs, 0 ≤ x ∧ x ≤ 1 := by
  unfold npNorm
  split_ifs with h
  · intro x hx
    rcases List.mem_map.mp hx with ⟨v, hv, rfl⟩
    have h1 := listMin_le_mem vs v hv
    have h2 := mem_le_listMax vs v hv
    have hd : 0 < listMax vs - listMin vs := by linarith
    constructor
    · exact div_nonneg (by linarith) (le_of_lt hd)
    · rw [div_le_one hd]
      linarith
  · intro x hx
    rcases List.mem_map.mp hx with ⟨v, hv, rfl⟩
    norm_num

theorem zipWith3_congr (f g : ℚ → ℚ → ℚ → ℚ) (h : ∀ a b c, f a b c = g a b c) :
    ∀ as bs cs, zipWith3 f as bs cs = zipWith3 g as bs cs := by
  intro as
  induction as with
  | nil => intro bs cs; rfl
  | cons a as ih =>
    intro bs cs
    cases bs with
    | nil => rfl
    | cons b bs =>
      cases cs with
      | nil => rfl
      | cons c cs => simp [zipWith3, h a b c, ih bs cs]

theorem zipWith3_mem (f : ℚ → ℚ → ℚ → ℚ) :
    ∀ as bs cs, ∀ x ∈ zipWith3 f as bs cs,
      ∃ a ∈ as, ∃ b ∈ bs, ∃ c ∈ cs, x = f a b c := by
  intro as
  induction as with
  | nil => intro bs cs x hx; cases hx
  | cons a as ih =>
    intro bs cs x hx
    cases bs with
    | nil => cases hx
    | cons b bs =>
      cases cs with
      | nil => cases hx
      | cons c cs =>
        rcases List.mem_cons.mp hx with rfl | hx
        · exact ⟨a, List.mem_cons_self a as, b, List.mem_cons_self b bs,
            c, List.mem_cons_self c cs, rfl⟩
        · rcases ih bs cs x hx with ⟨a1, ha1, b1, hb1, c1, hc1, rfl⟩
          exact ⟨a1, List.mem_cons_of_mem a ha1, b1, List.mem_cons_of_mem b hb1,
            c1, List.mem_cons_of_mem c hc1, rfl⟩

/-- C3 (amended): every `Bottleneck_Score` is the claim's weighted
min-max composite rounded to one decimal, and every score lies in the
normalized range 0–100. -/
theorem bottleneck_scores_spec (rows : List BotRow) :
    bottleneck_scores rows = (bottleneckFormula rows).map round1
    ∧ ∀ s ∈ bottleneck_scores rows, 0 ≤ s ∧ s ≤ 100 := by
  have heq : bottleneck_scores rows = (bottleneckFormula rows).map round1 := by
    unfold bottleneck_scores bottleneckFormula
    rw [npNorm_eq_mmnormSpec, npNorm_eq_mmnormSpec, npNorm_eq_mmnormSpec]
    rw [zipWith3_congr (fun a b c => (0.45 * a + 0.35 * b + 0.20 * c) * 100)
      (fun a b c => 100 * (0.45 * a + 0.35 * b + 0.20 * c)) (by intro a b c; ring)]
  refine ⟨heq, ?_⟩
  intro s hs
  unfold bottleneck_scores at hs
  rcases List.mem_map.mp hs with ⟨x, hx, rfl⟩
  rcases zipWith3_mem _ _ _ _ x hx with ⟨a, ha, b, hb, c, hc, rfl⟩
  obtain ⟨ha0, ha1⟩ := npNorm_mem_unit _ a ha
  obtain ⟨hb0, hb1⟩ := npNorm_mem_unit _ b hb
  obtain ⟨hc0, hc1⟩ := npNorm_mem_unit _ c hc
  constructor
  · exact round1_nonneg _ (by nlinarith)
  · exact round1_le_100 _ (by nlinarith)

theorem c3_keys_eval : botKeys c3Rows = [("A", "nb"), ("B", "nb"), ("C", "nb")] := by
  decide

theorem c3_groupA_eval : botGroup c3Rows ("A", "nb") = [BotRow.mk "A" "NB" 0 0] := by
  decide

theorem c3_groupB_eval : botGroup c3Rows ("B", "nb") = [BotRow.mk "B" "NB" 1 1] := by
  decide

theorem c3_groupC_eval : botGroup c3Rows ("C", "nb") = [BotRow.mk "C" "NB" 3 3] := by
  decide

theorem c3_delayMax_eval : delayMaxCol c3Rows = [0, 1, 3] := by
  simp [delayMaxCol, c3_keys_eval, c3_groupA_eval, c3_groupB_eval, c3_groupC_eval, listMax]

theorem c3_delayMean_eval : delayMeanCol c3Rows = [0, 1, 3] := by
  simp [delayMeanCol, c3_keys_eval, c3_groupA_eval, c3_groupB_eval, c3_groupC_eval, listMean]

theorem c3_ttMax_eval : ttMaxCol c3Rows = [0, 1, 3] := by
  simp [ttMaxCol, c3_keys_eval, c3_groupA_eval, c3_groupB_eval, c3_groupC_eval, listMax]

theorem c3_npNorm_eval : npNorm [0, 1, 3] = [0, 1 / 3, 1] := by
  have hmin : listMin [(0 : ℚ), 1, 3] = 0 := by decide
  have hmax : listMax [(0 : ℚ), 1, 3] = 3 := by decide
  unfold npNorm
  rw [hmin, hmax, if_pos (by norm_num)]
  norm_num

theorem c3_scores_eval : bottleneck_scores c3Rows = [0, 333 / 10, 100] := by
  unfold bottleneck_scores
  rw [c3_delayMax_eval, c3_delayMean_eval, c3_ttMax_eval, c3_npNorm_eval]
  simp only [zipWith3, List.map_cons, List.map_nil]
  norm_num [round1, roundHalfEven]

theorem c3_formula_eval : bottleneckFormula c3Rows = [0, 100 / 3, 100] := by
  unfold bottleneckFormula
  rw [← npNorm_eq_mmnormSpec, ← npNorm_eq_mmnormSpec, ← npNorm_eq_mmnormSpec,
    c3_delayMax_eval, c3_delayMean_eval, c3_ttMax_eval, c3_npNorm_eval]
  simp only [zipWith3]
  norm_num

/-- Witness for C3 on a concrete three-group frame, with the middle
score instantiated in the range property. -/
theorem bottleneck_scores_spec_witness :
    (bottleneck_scores c3Rows = (bottleneckFormula c3Rows).map round1)
    ∧ ((333 : ℚ) / 10 ∈ bottleneck_scores c3Rows)
    ∧ (0 ≤ (333 : ℚ) / 10 ∧ (333 : ℚ) / 10 ≤ 100) :=
  ⟨(bottleneck_scores_spec _).1,
    by rw [c3_scores_eval]; simp,
    (bottleneck_scores_spec c3Rows).2 (333 / 10) (by rw [c3_scores_eval]; simp)⟩

/-- Counterexample to C3 as stated: with peak/mean values 0, 1, 3 the
middle group's composite is 100/3, but the stored `Bottleneck_Score`
is the rounded 33.3, so the column does not equal the exact formula. -/
theorem bottleneck_scores_rounding_counterexample :
    bottleneck_scores c3Rows ≠ bottleneckFormula c3Rows := by
  rw [c3_scores_eval, c3_formula_eval]
  simp only [ne_eq, List.cons.injEq, not_and]
  intro h1 h2
  norm_num at h2

theorem listMax_nonneg (l : List ℚ) (h : ∀ v ∈ l, 0 ≤ v) : 0 ≤ listMax l := by
  cases l with
  | nil => exact le_refl 0
  | cons x xs =>
    exact le_trans (h x (List.mem_cons_self x xs)) (init_le_foldl_max xs x)

theorem listMean_nonneg (l : List ℚ) (h : ∀ v ∈ l, 0 ≤ v) : 0 ≤ listMean l := by
  unfold listMean
  exact div_nonneg (List.sum_nonneg h) (by positivity)

/-- C4 (amended): every Risk Score equals the claim's weighted formula
(rounded to one decimal, with no min-max normalization), and is
nonnegative when the volumes are; it is not confined to 0–100. -/
theorem risk_scores_spec (rows : List VolRow) :
    risk_scores rows = (riskFormula rows).map round1
    ∧ ((∀ r ∈ rows, 0 ≤ r.total_volume) → ∀ s ∈ risk_scores rows, 0 ≤ s) := by
  constructor
  · unfold risk_scores riskFormula THEORETICAL_LINK_CAPACITY_VPH
    rw [List.map_map]
    refine List.map_congr_left ?_
    intro k hk
    simp only [Function.comp]
    congr 1
    rw [show (100 * listMax (groupVols rows k) / 1800 : ℚ)
        = listMax (groupVols rows k) / 1800 * 100 from by ring,
      show (100 * listMean (groupVols rows k) / 1800 : ℚ)
        = listMean (groupVols rows k) / 1800 * 100 from by ring]
    ring
  · intro hnn s hs
    unfold risk_scores at hs
    rcases List.mem_map.mp hs with ⟨k, hk, rfl⟩
    have hvols : ∀ v ∈ groupVols rows k, 0 ≤ v := by
      intro v hv
      rcases List.mem_map.mp hv with ⟨r, hr, rfl⟩
      exact hnn r (List.mem_of_mem_filter hr)
    have hmax := listMax_nonneg _ hvols
    have hmean := listMean_nonneg _ hvols
    have h1 : (0 : ℚ) ≤ round1 (listMax (groupVols rows k)
        / THEORETICAL_LINK_CAPACITY_VPH * 100) := by
      refine round1_nonneg _ ?_
      unfold THEORETICAL_LINK_CAPACITY_VPH
      positivity
    have h2 : (0 : ℚ) ≤ round1 (listMean (groupVols rows k)
        / THEORETICAL_LINK_CAPACITY_VPH * 100) := by
      refine round1_nonneg _ ?_
      unfold THEORETICAL_LINK_CAPACITY_VPH
      positivity
    have h3 : (0 : ℚ) ≤ round1 (if listMean (groupVols rows k) = 0 then 0
        else listMax (groupVols rows k) / listMean (groupVols rows k)) := by
      refine round1_nonneg _ ?_
      split_ifs with hz
      · exact le_refl 0
      · exact div_nonneg hmax hmean
    exact round1_nonneg _ (by nlinarith)

theorem c4_keys_eval : riskKeys c4Rows = [("X", "NB")] := by decide

theorem c4_vols_eval : groupVols c4Rows ("X", "NB") = [3600] := by decide

theorem c4_score_eval : risk_scores c4Rows = [162] := by
  unfold risk_scores
  rw [c4_keys_eval]
  simp only [List.map_cons, List.map_nil, c4_vols_eval]
  norm_num [listMax, listMean, THEORETICAL_LINK_CAPACITY_VPH, round1, roundHalfEven]

/-- Counterexample to C4 as stated: a group whose peak volume is 200%
of capacity gets Risk Score 162, outside the claimed 0–100 range, and
no min-max normalization is applied (a min-max normalized score of the
single group would be 0). -/
theorem risk_scores_range_counterexample :
    risk_scores c4Rows = [162] ∧ ¬ ((162 : ℚ) ≤ 100) :=
  ⟨c4_score_eval, by norm_num⟩

/-- Witness for C4 at the concrete group, with the nonnegativity part
instantiated. -/
theorem risk_scores_spec_witness :
    (risk_scores c4Rows = (riskFormula c4Rows).map round1)
    ∧ (∀ r ∈ c4Rows, 0 ≤ r.total_volume)
    ∧ (0 ≤ (162 : ℚ)) :=
  ⟨(risk_scores_spec c4Rows).1,
    by intro r hr; fin_cases hr; norm_num,
    (risk_scores_spec c4Rows).2 (by intro r hr; fin_cases hr; norm_num) 162
      (by rw [c4_score_eval]; simp)⟩

/-- C7: the three functions are stateless and non-mutating: a run
leaves the store exactly as it was, and two runs reading equal inputs
(possibly from different stores or slots) return equal outputs. -/
theorem pipeline_stateless
    (σ1 σ2 : List (List VolRecord)) (i1 i2 : Nat) (g : String)
    (τ1 τ2 : List PeriodDF) (j1 j2 : Nat) (p : String)
    (υ1 υ2 : List (Option ℚ)) (l1 l2 : Nat)
    (hσ : σ1.getD i1 [] = σ2.getD i2 [])
    (hτ : τ1.getD j1 ⟨false, []⟩ = τ2.getD j2 ⟨false, []⟩)
    (hυ : υ1.getD l1 none = υ2.getD l2 none) :
    ((prepBucketRun σ1 i1 g).1 = σ1
      ∧ (prepBucketRun σ1 i1 g).2 = (prepBucketRun σ2 i2 g).2)
    ∧ ((filterByPeriodRun τ1 j1 p).1 = τ1
      ∧ (filterByPeriodRun τ1 j1 p).2 = (filterByPeriodRun τ2 j2 p).2)
    ∧ ((cycleLengthRun υ1 l1).1 = υ1
      ∧ (cycleLengthRun υ1 l1).2 = (cycleLengthRun υ2 l2).2) :=
  ⟨⟨rfl, congrArg (fun df => prep_bucket df g) hσ⟩,
    ⟨rfl, congrArg (fun df => filter_by_period df p) hτ⟩,
    ⟨rfl, congrArg get_hourly_cycle_length hυ⟩⟩

/-- Witness for C7: two different stores holding the same volume
dataframe in different slots, and likewise for the other two
functions. -/
theorem pipeline_stateless_witness :
    (([[VolRecord.mk ⟨2025, 1, 6, 7, 0⟩ "X" 10]] :
        List (List VolRecord)).getD 0 []
      = ([[], [VolRecord.mk ⟨2025, 1, 6, 7, 0⟩ "X" 10]] :
        List (List VolRecord)).getD 1 [])
    ∧ (([⟨true, []⟩] : List PeriodDF).getD 0 ⟨false, []⟩
      = ([⟨false, [⟨none, 1⟩]⟩, ⟨true, []⟩] : List PeriodDF).getD 1 ⟨false, []⟩)
    ∧ (([some 500] : List (Option ℚ)).getD 0 none
      = ([none, some 500] : List (Option ℚ)).getD 1 none)
    ∧ ((prepBucketRun [[VolRecord.mk ⟨2025, 1, 6, 7, 0⟩ "X" 10]] 0 "Daily").1
        = [[VolRecord.mk ⟨2025, 1, 6, 7, 0⟩ "X" 10]]
      ∧ (prepBucketRun [[VolRecord.mk ⟨2025, 1, 6, 7, 0⟩ "X" 10]] 0 "Daily").2
        = (prepBucketRun [[], [VolRecord.mk ⟨2025, 1, 6, 7, 0⟩ "X" 10]] 1 "Daily").2)
    ∧ ((filterByPeriodRun [⟨true, []⟩] 0 "AM").1 = [⟨true, []⟩]
      ∧ (filterByPeriodRun [⟨true, []⟩] 0 "AM").2
        = (filterByPeriodRun [⟨false, [⟨none, 1⟩]⟩, ⟨true, []⟩] 1 "AM").2)
    ∧ ((cycleLengthRun [some 500] 0).1 = [some 500]
      ∧ (cycleLengthRun [some 500] 0).2 = (cycleLengthRun [none, some 500] 1).2) :=
  ⟨by decide, by decide, by decide,
    pipeline_stateless [[VolRecord.mk ⟨2025, 1, 6, 7, 0⟩ "X" 10]]
      [[], [VolRecord.mk ⟨2025, 1, 6, 7, 0⟩ "X" 10]] 0 1 "Daily"
      [⟨true, []⟩] [⟨false, [⟨none, 1⟩]⟩, ⟨true, []⟩] 0 1 "AM"
      [some 500] [none, some 500] 0 1
      (by decide) (by decide) (by decide)⟩
